import Mathlib

/-!
Shallow embedding of `bipy/core/workflow.py` (Python 2).

The module implements a runtime-resolved workflow engine.  A `Workflow`
subclass declares methods named `wf_*`, each decorated with either
`no_requirements` or `requires(...)`.  Calling the workflow on an iterator
resolves a plan from the first item (`_get_workflow`), then applies the plan
to every item, yielding per-item results.

Modelling decisions, all taken from the source:
  * Python values that can appear in the `options` dict are modelled by
    `PyVal` (with `PyVal.none` standing for Python `None`).
  * A decorated method is a `Step`: its attribute name, its optional
    `priority` attribute, its decorator (`Gate`), and its body.  Bodies are
    modelled as functions reading the whole workflow object and producing the
    new `state` and `failed` fields, matching the documented contract that a
    body mutates per-item state and may set the failure flag (configuration
    and engine fields are read-only for bodies).
  * Python exceptions raised by the engine are modelled with `Except PyExc`:
    `StopIteration` from `it.next()` on an exhausted iterator and `TypeError`
    from an ill-typed `in` membership test.
  * `dir(self)` returns attribute names sorted lexicographically; `sorted`
    with `reverse=True` is a stable descending sort.  Both are modelled with
    the stable insertion sort `sSort` (a stable sort of a list under a total
    preorder is unique, so any stable sort models Python faithfully).
  * `debug` is modelled as `False` (no claim concerns the trace recorder), so
    the `_setup_debug`/`debug_trace` branches are omitted.
-/

/-- Python exceptions that the engine itself can raise. -/
inductive PyExc where
  | stopIteration
  | typeError (msg : String)
deriving DecidableEq

/-- Values stored in the `options` dict, with `PyVal.none` for Python None. -/
inductive PyVal where
  | none
  | int (n : Int)
  | str (s : String)
  | bool (b : Bool)
deriving DecidableEq

/-- The normalized `self.values` field of a `requires` decorator, after
`requires.__init__` ran: the `anything` sentinel, the `not_none` sentinel,
a bare string (kept as a string by the `isinstance(values, str)` branch), or
a set. -/
inductive Values where
  | anything
  | notNone
  | str (s : String)
  | vset (vs : List PyVal)
deriving DecidableEq

/-- The raw `values` argument passed to `requires(...)`: one of the two
sentinels, a string, a non-set non-string iterable, a non-iterable single
value, or a set. -/
inductive RawValues where
  | anything
  | notNone
  | str (s : String)
  | iterable (vs : List PyVal)
  | single (v : PyVal)
  | vset (vs : List PyVal)

/-- `requires.__init__`: normalization of the `values` argument.  Sentinels
are kept; a set is kept; a string is kept as a string; any other iterable is
turned into a set of its elements; any other value into a singleton set. -/
def normalizeValues : RawValues → Values
  | .anything => .anything
  | .notNone => .notNone
  | .vset vs => .vset vs
  | .str s => .str s
  | .iterable vs => .vset vs
  | .single v => .vset [v]

/-- List-of-chars model of Python str.startswith: `listPre pre l` is true when
`pre` is an initial segment of `l`. -/
def listPre : List Char → List Char → Bool
  | [], _ => true
  | _ :: _, [] => false
  | c :: cs, d :: ds => c == d && listPre cs ds

/-- List-of-chars model of the Python `in` test on two strings: contiguous
substring containment. -/
def listSub (needle hay : List Char) : Bool :=
  match hay with
  | [] => needle.isEmpty
  | _ :: rest => listPre needle hay || listSub needle rest

/-- Python `v in self.values` when `self.values` is already normalized.
Membership in the `anything` sentinel is always true (`Exists.__contains__`);
membership in the bare `not_none` sentinel (a plain `object()`) raises
`TypeError`; `v in <str>` is substring containment and raises `TypeError`
when `v` is not a string; membership in a set is equality membership. -/
def valuesContains (vals : Values) (v : PyVal) : Except PyExc Bool :=
  match vals with
  | .anything => .ok true
  | .notNone => .error (.typeError ("argument of type object is not iterable"))
  | .str s =>
    match v with
    | .str v0 => .ok (listSub v0.data s.data)
    | _ => .error (.typeError ("in string requires string as left operand"))
  | .vset vs => .ok (vs.contains v)

/-- Whether the normalized values field is the `not_none` sentinel, modelling
the Python identity test `self.values is not_none`. -/
def isNotNoneV : Values → Bool
  | .notNone => true
  | _ => false

/-- The mutable attributes of a `Workflow` instance that the engine and the
step bodies touch: the `options` dict, the `stats` counters, the
`short_circuit` flag, the per-item `failed` flag, and the user `state`. -/
structure Workflow (σ : Type) where
  options : List (String × PyVal)
  stats : List (String × Int)
  short_circuit : Bool
  failed : Bool
  state : σ
deriving DecidableEq

/-- The stored fields of a `requires` decorator instance. -/
structure Requires (σ : Type) where
  valid_state : Bool
  option : Option String
  values : Values
  valid_data : Option (σ → Bool)

/-- Which decorator wraps a workflow method: `no_requirements` or
`requires(...)`. -/
inductive Gate (σ : Type) where
  | noReq
  | req (r : Requires σ)

/-- A `wf_*` method of a `Workflow` subclass: its attribute name, its
optional `priority` attribute (set by the `priority` decorator), its
decorator, and its body.  The body reads the workflow object and returns the
new `state` and `failed` values. -/
structure Step (σ : Type) where
  name : String
  priority : Option Int
  gate : Gate σ
  body : Workflow σ → σ × Bool

/-- Run a step body: only `state` and `failed` change. -/
def applyBody {σ : Type} (body : Workflow σ → σ × Bool) (wf : Workflow σ) : Workflow σ :=
  { wf with state := (body wf).1, failed := (body wf).2 }

/-- Python dict lookup `k in d` / `d[k]` over the options, keys unique. -/
def lookupOpt (opts : List (String × PyVal)) (k : String) : Option PyVal :=
  match opts with
  | [] => Option.none
  | p :: rest => if p.1 = k then some p.2 else lookupOpt rest k

/-- The tail of `requires.__call__.decorated` after the short-circuit check
and the `valid_data` check: the option checks.  Returns the workflow after
the call together with `true` when the wrapped function ran (the Python
return value `_executed`) and `false` when it returned `None`. -/
def runRequiresOption {σ : Type} (r : Requires σ) (body : Workflow σ → σ × Bool)
    (wf : Workflow σ) : Except PyExc (Workflow σ × Bool) :=
  match r.option with
  | Option.none => .ok (applyBody body wf, true)
  | some k =>
    match lookupOpt wf.options k with
    | Option.none => .ok (wf, false)
    | some v =>
      if isNotNoneV r.values && !(v == PyVal.none) then .ok (applyBody body wf, true)
      else
        match valuesContains r.values v with
        | .error e => .error e
        | .ok true => .ok (applyBody body wf, true)
        | .ok false => .ok (wf, false)

/-- The part of `requires.__call__.decorated` after the short-circuit check:
`valid_data` check, then option checks. -/
def runRequiresChecks {σ : Type} (r : Requires σ) (body : Workflow σ → σ × Bool)
    (wf : Workflow σ) : Except PyExc (Workflow σ × Bool) :=
  match r.valid_data with
  | some p => if p wf.state then runRequiresOption r body wf else .ok (wf, false)
  | Option.none => runRequiresOption r body wf

/-- `requires.__call__.decorated`: short-circuit check
(`self.valid_state and (wrapped.failed and wrapped.short_circuit)`), then the
remaining checks. -/
def runRequires {σ : Type} (r : Requires σ) (body : Workflow σ → σ × Bool)
    (wf : Workflow σ) : Except PyExc (Workflow σ × Bool) :=
  if r.valid_state && (wf.failed && wf.short_circuit) then .ok (wf, false)
  else runRequiresChecks r body wf

/-- Call one decorated workflow method. -/
def runStep {σ : Type} (s : Step σ) (wf : Workflow σ) : Except PyExc (Workflow σ × Bool) :=
  match s.gate with
  | .noReq => .ok (applyBody s.body wf, true)
  | .req r => runRequires r s.body wf

/-- Stable insertion into a sorted list: the new element goes in front of the
first element it is le-related to, hence after every earlier equal element. -/
def sInsert {α : Type} (le : α → α → Bool) (x : α) : List α → List α
  | [] => [x]
  | y :: ys => if le x y then x :: y :: ys else y :: sInsert le x ys

/-- Stable insertion sort, modelling Python sorted (which is stable; a stable
sort of a list under a total preorder is unique as a function). -/
def sSort {α : Type} (le : α → α → Bool) : List α → List α
  | [] => []
  | x :: xs => sInsert le x (sSort le xs)

/-- Lexicographic comparison of char lists by code point, the order Python
uses to compare the attribute-name strings returned by dir(). -/
def lexLe : List Char → List Char → Bool
  | [], _ => true
  | _ :: _, [] => false
  | c :: cs, d :: ds =>
    if c.toNat < d.toNat then true
    else if d.toNat < c.toNat then false
    else lexLe cs ds

/-- Sort key of `_all_wf_methods`: the priority attribute, defaulting to 0. -/
def prioKey {σ : Type} (s : Step σ) : Int :=
  match s.priority with
  | some p => p
  | Option.none => 0

/-- Name order of two steps, as dir() orders attribute names. -/
def nameLe {σ : Type} (a b : Step σ) : Bool := lexLe a.name.data b.name.data

/-- Descending-priority order used by
`sorted(methods, key=..., reverse=True)`. -/
def prioGe {σ : Type} (a b : Step σ) : Bool := decide (prioKey b ≤ prioKey a)

/-- `Workflow._all_wf_methods`: collect the `wf_*` attributes in dir() order
(lexicographic by name), then stable-sort by priority descending. -/
def allWfMethods {σ : Type} (cat : List (Step σ)) : List (Step σ) :=
  sSort prioGe (sSort nameLe (cat.filter (fun s => listPre (String.data ("wf_")) s.name.data)))

/-- The list comprehension
`[f for f in self._all_wf_methods() if f() is _executed]`: run every method
in order, threading the workflow object, and keep those that returned
`_executed`. -/
def selectSteps {σ : Type} : List (Step σ) → Workflow σ → Except PyExc (Workflow σ × List (Step σ))
  | [], wf => .ok (wf, [])
  | s :: rest, wf =>
    match runStep s wf with
    | .error e => .error e
    | .ok (w2, ex) =>
      match selectSteps rest w2 with
      | .error e => .error e
      | .ok (w3, sel) => .ok (w3, if ex then s :: sel else sel)

/-- `Workflow._get_workflow`: raise StopIteration on an exhausted stream,
otherwise disable short-circuiting, initialize state from the peeked item,
run every method keeping the executed ones, restore `short_circuit` and
`stats`, and re-prepend the peeked item to the stream.  (On the
StopIteration path the real code leaves `short_circuit` False behind; the
`Except` model drops the mutated object, which no claim observes.) -/
def getWorkflow {σ ι : Type} (cat : List (Step σ)) (init : ι → σ) (wf : Workflow σ)
    (items : List ι) : Except PyExc (List ι × List (Step σ) × Workflow σ) :=
  match items with
  | [] => .error .stopIteration
  | peek :: rest =>
    match selectSteps (allWfMethods cat) { wf with short_circuit := false, state := init peek } with
    | .error e => .error e
    | .ok (w2, executed) =>
      .ok (peek :: rest, executed, { w2 with short_circuit := wf.short_circuit, stats := wf.stats })

/-- The inner loop of `Workflow.__call__` for one item: run every plan
member in order, threading the workflow object. -/
def runPlan {σ : Type} (plan : List (Step σ)) (wf : Workflow σ) : Except PyExc (Workflow σ) :=
  match plan with
  | [] => .ok wf
  | s :: rest =>
    match runStep s wf with
    | .error e => .error e
    | .ok (w2, _) => runPlan rest w2

/-- The item loop of `Workflow.__call__`: per item reset `failed`, initialize
state, run the plan, then yield `success_callback(self)` on success,
`fail_callback(self)` on failure when given, and nothing on failure
otherwise.  Returns the yielded values, the exception that aborted the
generator (if any), and the final workflow object. -/
def runItems {σ ι ρ : Type} (plan : List (Step σ)) (init : ι → σ)
    (fc : Option (Workflow σ → ρ)) (succ : Workflow σ → ρ) :
    List ι → Workflow σ → List ρ × Option PyExc × Workflow σ
  | [], wf => ([], Option.none, wf)
  | item :: rest, wf =>
    match runPlan plan { wf with failed := false, state := init item } with
    | .error e => ([], some e, { wf with failed := false, state := init item })
    | .ok wf2 =>
      match runItems plan init fc succ rest wf2 with
      | (outs, st, wfN) =>
        if wf2.failed then
          match fc with
          | some f => (f wf2 :: outs, st, wfN)
          | Option.none => (outs, st, wfN)
        else (succ wf2 :: outs, st, wfN)

/-- `Workflow.__call__` as a whole: resolve the plan from the first item,
then run the item loop over the restored stream.  Returns the yielded values
together with the exception (if any) raised inside the generator body. -/
def workflowCall {σ ι ρ : Type} (cat : List (Step σ)) (init : ι → σ) (wf : Workflow σ)
    (items : List ι) (succ : Workflow σ → ρ) (fc : Option (Workflow σ → ρ)) :
    List ρ × Option PyExc :=
  match getWorkflow cat init wf items with
  | .error e => ([], some e)
  | .ok (its, plan, wf1) =>
    match runItems plan init fc succ its wf1 with
    | (outs, st, _) => (outs, st)

/-- What a Python 2 caller iterating the generator observes: the yielded
values, and the exception that escapes the for-loop.  A StopIteration raised
inside a Python 2 generator body is indistinguishable from normal generator
exhaustion, so it is swallowed. -/
def observedCall {σ ι ρ : Type} (cat : List (Step σ)) (init : ι → σ) (wf : Workflow σ)
    (items : List ι) (succ : Workflow σ → ρ) (fc : Option (Workflow σ → ρ)) :
    List ρ × Option PyExc :=
  match workflowCall cat init wf items succ fc with
  | (outs, some .stopIteration) => (outs, Option.none)
  | r => r

/-- The output one item contributes when no fail callback is supplied,
computed from a workflow object with the same environment fields. -/
def itemOutput {σ ι ρ : Type} (plan : List (Step σ)) (init : ι → σ)
    (succ : Workflow σ → ρ) (wf : Workflow σ) (item : ι) : Option ρ :=
  match runPlan plan { wf with failed := false, state := init item } with
  | .error _ => Option.none
  | .ok w => if w.failed then Option.none else some (succ w)

/-- The example catalogue of the module docstring and of the spec: StepA. -/
def stepMul : Step Int :=
  { name := "wf_mul", priority := some 100, gate := .noReq,
    body := fun w => (w.state * w.state, w.failed) }

/-- StepB of the example catalogue: gated on the `double` option key with the
default `anything` matcher. -/
def stepDouble : Step Int :=
  { name := "wf_double", priority := some 10,
    gate := .req { valid_state := true, option := some ("double"),
                   values := normalizeValues .anything, valid_data := Option.none },
    body := fun w => (w.state + w.state, w.failed) }

/-- StepC of the example catalogue: gated on the `sub` option key with
allowed values 1, 5, 10, body subtracting the configured value. -/
def stepSub : Step Int :=
  { name := "wf_sub", priority := Option.none,
    gate := .req { valid_state := true, option := some ("sub"),
                   values := normalizeValues (.iterable [.int 1, .int 5, .int 10]),
                   valid_data := Option.none },
    body := fun w =>
      (w.state - (match lookupOpt w.options ("sub") with | some (.int n) => n | _ => 0),
       w.failed) }

/-- The three-step example catalogue, in declaration order. -/
def c1cat : List (Step Int) := [stepMul, stepDouble, stepSub]

/-- The example configuration: the `double` key present and `sub` set to 5. -/
def c1opts : List (String × PyVal) := [("double", PyVal.bool true), ("sub", PyVal.int 5)]

/-- A freshly constructed workflow object with the given options: empty
stats, short-circuiting on, not failed, zero state. -/
def mkWf (opts : List (String × PyVal)) : Workflow Int :=
  { options := opts, stats := [], short_circuit := true, failed := false, state := 0 }

/-- C1: running the engine over the input stream 0..9 with the example
catalogue and configuration yields exactly ((i*i)*2) - 5 per item, in order,
with no exception. -/
theorem c1_example_pipeline :
    workflowCall c1cat (fun i => i) (mkWf c1opts)
      ((List.range 10).map (fun n => (n : Int))) (fun w => w.state) Option.none
    = ((List.range 10).map (fun n => ((n : Int) * n) * 2 - 5), Option.none) := by
  decide

/-- The environment fields of two workflow objects agree: the options dict,
the stats counters, and the short-circuit flag. -/
def sameEnv {σ : Type} (a b : Workflow σ) : Prop :=
  a.options = b.options ∧ a.stats = b.stats ∧ a.short_circuit = b.short_circuit

theorem sameEnv_refl {σ : Type} (wf : Workflow σ) : sameEnv wf wf := ⟨rfl, rfl, rfl⟩

theorem sameEnv_trans {σ : Type} {a b c : Workflow σ} (h1 : sameEnv a b)
    (h2 : sameEnv b c) : sameEnv a c :=
  ⟨h1.1.trans h2.1, h1.2.1.trans h2.2.1, h1.2.2.trans h2.2.2⟩

/-- A step call either ran the body or left the workflow object unchanged. -/
theorem runStep_shape {σ : Type} (s : Step σ) (wf w2 : Workflow σ) (e : Bool)
    (h : runStep s wf = .ok (w2, e)) :
    w2 = if e then applyBody s.body wf else wf := by
  cases s with
  | mk name priority gate body =>
    cases gate with
    | noReq =>
      simp only [runStep] at h
      cases h
      rfl
    | req r =>
      simp only [runStep, runRequires, runRequiresChecks, runRequiresOption] at h
      repeat' split at h
      all_goals simp_all

/-- A step call does not change the options, the stats, or the short-circuit
flag. -/
theorem runStep_env {σ : Type} (s : Step σ) (wf w2 : Workflow σ) (e : Bool)
    (h : runStep s wf = .ok (w2, e)) : sameEnv w2 wf := by
  rw [runStep_shape s wf w2 e h]
  cases e
  · exact sameEnv_refl wf
  · exact ⟨rfl, rfl, rfl⟩

/-- Running a whole plan does not change the options, the stats, or the
short-circuit flag. -/
theorem runPlan_env {σ : Type} (plan : List (Step σ)) (wf w2 : Workflow σ)
    (h : runPlan plan wf = .ok w2) : sameEnv w2 wf := by
  induction plan generalizing wf with
  | nil =>
    simp only [runPlan] at h
    cases h
    exact sameEnv_refl _
  | cons s rest ih =>
    simp only [runPlan] at h
    cases hrs : runStep s wf with
    | error e => rw [hrs] at h; cases h
    | ok p =>
      obtain ⟨w1, ex⟩ := p
      rw [hrs] at h
      exact sameEnv_trans (ih w1 h) (runStep_env s wf w1 ex hrs)

/-- A gated step whose option key is absent from the options dict returns
None (is not executed) and leaves the workflow object unchanged, on every
path through the decorated function. -/
theorem runStep_absent_key {σ : Type} (s : Step σ) (r : Requires σ) (k : String)
    (wf : Workflow σ) (hg : s.gate = .req r) (hk : r.option = some k)
    (habs : lookupOpt wf.options k = Option.none) :
    runStep s wf = .ok (wf, false) := by
  simp only [runStep, hg, runRequires, runRequiresChecks, runRequiresOption, hk, habs]
  repeat' split
  all_goals rfl

/-- Through the whole selection scan of plan resolution, a step gated on an
option key absent from the options dict is never collected. -/
theorem selectSteps_absent {σ : Type} (s : Step σ) (r : Requires σ) (k : String)
    (hg : s.gate = .req r) (hk : r.option = some k) :
    ∀ (ms : List (Step σ)) (wf w2 : Workflow σ) (sel : List (Step σ)),
      lookupOpt wf.options k = Option.none →
      selectSteps ms wf = .ok (w2, sel) → s ∉ sel := by
  intro ms
  induction ms with
  | nil =>
    intro wf w2 sel habs h
    cases h
    simp
  | cons m rest ih =>
    intro wf w2 sel habs h
    cases hrs : runStep m wf with
    | error e => simp [selectSteps, hrs] at h
    | ok p =>
      obtain ⟨w1, ex⟩ := p
      cases hsel : selectSteps rest w1 with
      | error e => simp [selectSteps, hrs, hsel] at h
      | ok q =>
        obtain ⟨w3, sel2⟩ := q
        simp only [selectSteps, hrs, hsel, Except.ok.injEq, Prod.mk.injEq] at h
        obtain ⟨hw, hs⟩ := h
        subst hs
        have henv : sameEnv w1 wf := runStep_env m wf w1 ex hrs
        have habs1 : lookupOpt w1.options k = Option.none := by
          rw [henv.1]; exact habs
        have hrec : s ∉ sel2 := ih w1 w3 sel2 habs1 hsel
        cases ex with
        | false => simpa using hrec
        | true =>
          intro hmem
          rw [if_pos rfl] at hmem
          rcases List.mem_cons.mp hmem with hsm | hsm
          · rw [runStep_absent_key m r k wf (hsm ▸ hg) hk habs] at hrs
            simp at hrs
          · exact hrec hsm

/-- C5: a step whose requirement is gated on an option key absent from the
configuration is not included in the resolved plan (and hence, since the
item loop only invokes plan members, its body never runs for any item of the
stream). -/
theorem c5_absent_key_excluded {σ ι : Type} (cat : List (Step σ)) (init : ι → σ)
    (wf : Workflow σ) (items : List ι) (its : List ι) (plan : List (Step σ))
    (wf2 : Workflow σ) (s : Step σ) (r : Requires σ) (k : String)
    (hg : s.gate = .req r) (hk : r.option = some k)
    (habs : lookupOpt wf.options k = Option.none)
    (h : getWorkflow cat init wf items = .ok (its, plan, wf2)) :
    s ∉ plan := by
  cases items with
  | nil => simp [getWorkflow] at h
  | cons peek rest =>
    cases hsel : selectSteps (allWfMethods cat)
        { wf with short_circuit := false, state := init peek } with
    | error e => simp [getWorkflow, hsel] at h
    | ok q =>
      obtain ⟨w3, executed⟩ := q
      simp only [getWorkflow, hsel, Except.ok.injEq, Prod.mk.injEq] at h
      obtain ⟨-, hplan, -⟩ := h
      subst hplan
      exact selectSteps_absent s r k hg hk (allWfMethods cat)
        { wf with short_circuit := false, state := init peek } w3 executed habs hsel

/-- Requirement of the C5 witness step: gated on a key never configured. -/
def rNoKey : Requires Int :=
  { valid_state := true, option := some ("absent"), values := .anything,
    valid_data := Option.none }

/-- C5 witness step. -/
def stepNoKey : Step Int :=
  { name := "wf_nokey", priority := Option.none, gate := .req rNoKey,
    body := fun w => (w.state + 1, w.failed) }

theorem c5_witness : stepNoKey ∉ ([] : List (Step Int)) :=
  c5_absent_key_excluded [stepNoKey] (fun i => i) (mkWf []) [7] [7] []
    { options := [], stats := [], short_circuit := true, failed := false, state := 7 }
    stepNoKey rNoKey ("absent") rfl rfl rfl rfl

/-- C2: plan resolution samples only the first item, and the stream handed to
the item loop is the full original stream with the sampled item back in its
first position, so no item is lost or duplicated. -/
theorem c2_peek_restoration {σ ι : Type} (cat : List (Step σ)) (init : ι → σ)
    (wf : Workflow σ) (i : ι) (rest its : List ι) (plan : List (Step σ))
    (wf2 : Workflow σ)
    (h : getWorkflow cat init wf (i :: rest) = .ok (its, plan, wf2)) :
    its = i :: rest := by
  cases hsel : selectSteps (allWfMethods cat)
      { wf with short_circuit := false, state := init i } with
  | error e => simp [getWorkflow, hsel] at h
  | ok q =>
    obtain ⟨w3, executed⟩ := q
    simp only [getWorkflow, hsel, Except.ok.injEq, Prod.mk.injEq] at h
    exact h.1.symm

theorem c2_witness : ([0, 1] : List Int) = 0 :: [1] :=
  c2_peek_restoration [] (fun i => i) (mkWf []) 0 [1] [0, 1] [] (mkWf []) rfl

/-- C4: at any point of an item where the failed flag is set and
short-circuiting is enabled, a step gated with valid_state true is skipped
without running its body and without touching the workflow object, a step
decorated with no_requirements still runs its body, and a step gated with
valid_state false proceeds to its remaining data and option checks exactly
as it would have without the failure. -/
theorem c4_short_circuit {σ : Type} (s : Step σ) (wf : Workflow σ)
    (hf : wf.failed = true) (hsc : wf.short_circuit = true) :
    (∀ r : Requires σ, s.gate = .req r → r.valid_state = true →
        runStep s wf = .ok (wf, false)) ∧
    (s.gate = .noReq → runStep s wf = .ok (applyBody s.body wf, true)) ∧
    (∀ r : Requires σ, s.gate = .req r → r.valid_state = false →
        runStep s wf = runRequiresChecks r s.body wf) := by
  refine ⟨fun r hg hv => ?_, fun hg => ?_, fun r hg hv => ?_⟩
  · simp [runStep, hg, runRequires, hv, hf, hsc]
  · simp [runStep, hg]
  · simp [runStep, hg, runRequires, hv]

/-- Requirement of the C4 witness step: honors the failure flag. -/
def rGated : Requires Int :=
  { valid_state := true, option := Option.none, values := .anything,
    valid_data := Option.none }

/-- C4 witness step. -/
def stepGated : Step Int :=
  { name := "wf_gated", priority := Option.none, gate := .req rGated,
    body := fun w => (w.state + 1, w.failed) }

/-- A workflow object that has failed with short-circuiting enabled. -/
def wfFailed : Workflow Int :=
  { options := [], stats := [], short_circuit := true, failed := true, state := 0 }

theorem c4_witness : runStep stepGated wfFailed = .ok (wfFailed, false) :=
  (c4_short_circuit stepGated wfFailed rfl rfl).1 rGated rfl rfl

theorem mem_sInsert {α : Type} (le : α → α → Bool) (x : α) (l : List α) (y : α) :
    y ∈ sInsert le x l ↔ y = x ∨ y ∈ l := by
  induction l with
  | nil => simp [sInsert]
  | cons z zs ih =>
    simp only [sInsert]
    split
    · simp [List.mem_cons]
    · simp only [List.mem_cons, ih]
      tauto

theorem mem_sSort {α : Type} (le : α → α → Bool) (l : List α) (y : α) :
    y ∈ sSort le l ↔ y ∈ l := by
  induction l with
  | nil => simp [sSort]
  | cons x xs ih => simp [sSort, mem_sInsert, ih]

/-- The combined invariant of a stable sort: output pairs are le2-ordered,
and le2-ties keep the le1 relation they had in the input order. -/
def combRel {α : Type} (le1 le2 : α → α → Bool) (a b : α) : Prop :=
  le2 a b = true ∧ (le2 b a = true → le1 a b = true)

theorem sInsert_comb {α : Type} (le1 le2 : α → α → Bool)
    (htr : ∀ a b c, le2 a b = true → le2 b c = true → le2 a c = true)
    (hto : ∀ a b, le2 a b = true ∨ le2 b a = true)
    (x : α) (l : List α)
    (hx : ∀ y ∈ l, le1 x y = true)
    (hl : List.Pairwise (combRel le1 le2) l) :
    List.Pairwise (combRel le1 le2) (sInsert le2 x l) := by
  induction l with
  | nil => simp [sInsert, combRel]
  | cons z zs ih =>
    simp only [sInsert]
    rcases List.pairwise_cons.mp hl with ⟨hz, hzs⟩
    split
    next hle =>
      refine List.pairwise_cons.mpr ⟨?_, hl⟩
      intro b hb
      rcases List.mem_cons.mp hb with hbz | hbzs
      · subst hbz
        exact ⟨hle, fun _ => hx b (List.mem_cons_self b zs)⟩
      · exact ⟨htr x z b hle (hz b hbzs).1,
          fun _ => hx b (List.mem_cons_of_mem z hbzs)⟩
    next hle =>
      refine List.pairwise_cons.mpr
        ⟨?_, ih (fun y hy => hx y (List.mem_cons_of_mem z hy)) hzs⟩
      intro b hb
      rcases (mem_sInsert le2 x zs b).mp hb with hbx | hbzs
      · subst hbx
        rcases hto z b with h1 | h1
        · exact ⟨h1, fun h2 => absurd h2 (by simpa using hle)⟩
        · exact absurd h1 (by simpa using hle)
      · exact hz b hbzs

theorem sSort_comb {α : Type} (le1 le2 : α → α → Bool)
    (htr : ∀ a b c, le2 a b = true → le2 b c = true → le2 a c = true)
    (hto : ∀ a b, le2 a b = true ∨ le2 b a = true)
    (l : List α) (h : List.Pairwise (fun a b => le1 a b = true) l) :
    List.Pairwise (combRel le1 le2) (sSort le2 l) := by
  induction l with
  | nil => simp [sSort]
  | cons x xs ih =>
    rcases List.pairwise_cons.mp h with ⟨hx, hxs⟩
    exact sInsert_comb le1 le2 htr hto x (sSort le2 xs)
      (fun y hy => hx y ((mem_sSort le2 xs y).mp hy)) (ih hxs)

theorem pairwise_true_rel {α : Type} (l : List α) :
    List.Pairwise (fun _ _ : α => (true : Bool) = true) l := by
  induction l with
  | nil => exact List.Pairwise.nil
  | cons x xs ih => exact List.Pairwise.cons (fun y _ => rfl) ih

theorem lexLe_total : ∀ a b : List Char, lexLe a b = true ∨ lexLe b a = true := by
  intro a
  induction a with
  | nil => intro b; left; rfl
  | cons c cs ih =>
    intro b
    cases b with
    | nil => right; rfl
    | cons d ds =>
      simp only [lexLe]
      rcases Nat.lt_trichotomy c.toNat d.toNat with h | h | h
      · left; simp [h]
      · have h1 : ¬ c.toNat < d.toNat := by omega
        have h2 : ¬ d.toNat < c.toNat := by omega
        simp only [h1, h2, if_false]
        exact ih ds
      · right; simp [h, Nat.lt_asymm h]

theorem lexLe_trans :
    ∀ a b c : List Char, lexLe a b = true → lexLe b c = true → lexLe a c = true := by
  intro a
  induction a with
  | nil => intro b c _ _; rfl
  | cons x xs ih =>
    intro b c hab hbc
    cases b with
    | nil => simp [lexLe] at hab
    | cons y ys =>
      cases c with
      | nil => simp [lexLe] at hbc
      | cons z zs =>
        simp only [lexLe] at hab hbc ⊢
        by_cases h1 : x.toNat < y.toNat
        · by_cases h2 : y.toNat < z.toNat
          · simp [show x.toNat < z.toNat by omega]
          · by_cases h3 : z.toNat < y.toNat
            · simp [h2, h3] at hbc
            · simp [show x.toNat < z.toNat by omega]
        · by_cases h1b : y.toNat < x.toNat
          · simp [h1, h1b] at hab
          · by_cases h2 : y.toNat < z.toNat
            · simp [show x.toNat < z.toNat by omega]
            · by_cases h3 : z.toNat < y.toNat
              · simp [h2, h3] at hbc
              · have hxz1 : ¬ x.toNat < z.toNat := by omega
                have hxz2 : ¬ z.toNat < x.toNat := by omega
                simp only [h1, h1b, if_false] at hab
                simp only [h2, h3, if_false] at hbc
                simp only [hxz1, hxz2, if_false]
                exact ih ys zs hab hbc

theorem nameLe_total {σ : Type} (a b : Step σ) : nameLe a b = true ∨ nameLe b a = true :=
  lexLe_total a.name.data b.name.data

theorem prioGe_total {σ : Type} (a b : Step σ) : prioGe a b = true ∨ prioGe b a = true := by
  unfold prioGe
  rcases Int.le_total (prioKey b) (prioKey a) with h | h
  · left; simpa using h
  · right; simpa using h

theorem prioGe_trans {σ : Type} (a b c : Step σ) (h1 : prioGe a b = true)
    (h2 : prioGe b c = true) : prioGe a c = true := by
  simp only [prioGe, decide_eq_true_eq] at h1 h2 ⊢
  omega

/-- C3 amended: the resolved method order is sorted by priority descending,
and two steps with equal priority appear in lexicographic name order (the
order dir() yields and the stable sort preserves), for every catalogue. -/
theorem c3_plan_order_amended {σ : Type} (cat : List (Step σ)) :
    List.Pairwise
      (fun a b => prioKey b < prioKey a ∨ (prioKey a = prioKey b ∧ nameLe a b = true))
      (allWfMethods cat) := by
  have h1 : List.Pairwise (fun a b : Step σ => nameLe a b = true)
      (sSort nameLe (cat.filter (fun s => listPre (String.data ("wf_")) s.name.data))) := by
    have h0 := sSort_comb (fun _ _ => true) nameLe
      (fun a b c => lexLe_trans a.name.data b.name.data c.name.data)
      nameLe_total
      (cat.filter (fun s => listPre (String.data ("wf_")) s.name.data))
      (pairwise_true_rel _)
    exact h0.imp (fun h => h.1)
  have h2 := sSort_comb nameLe prioGe prioGe_trans prioGe_total _ h1
  unfold allWfMethods
  refine h2.imp ?_
  intro a b hab
  rcases hab with ⟨hge, htie⟩
  have hba : prioKey b ≤ prioKey a := by simpa [prioGe] using hge
  rcases lt_or_eq_of_le hba with hlt | heq
  · exact Or.inl hlt
  · exact Or.inr ⟨heq.symm, htie (by simp [prioGe, heq])⟩

/-- First declared step of the C3 counterexample catalogue: priority 5, name
after its tie partner in alphabetical order. -/
def stepTieB : Step Int :=
  { name := "wf_b", priority := some 5, gate := .noReq,
    body := fun w => (w.state, w.failed) }

/-- Second declared step of the C3 counterexample catalogue: priority 5. -/
def stepTieA : Step Int :=
  { name := "wf_a", priority := some 5, gate := .noReq,
    body := fun w => (w.state, w.failed) }

/-- The C3 counterexample catalogue, declaring wf_b before wf_a. -/
def catTie : List (Step Int) := [stepTieB, stepTieA]

/-- Names of the resolved plan of an Int workflow, when resolution succeeds. -/
def planNames (cat : List (Step Int)) (wf : Workflow Int) (items : List Int) :
    Option (List String) :=
  match getWorkflow cat (fun i => i) wf items with
  | .ok (_, plan, _) => some (plan.map (fun s => s.name))
  | .error _ => Option.none

/-- C3 counterexample: a catalogue declaring two priority-5 steps in the
order wf_b, wf_a resolves to a plan running wf_a before wf_b, so equal
priorities follow alphabetical attribute-name order, not declaration
order. -/
theorem c3_counterexample :
    catTie.map (fun s => s.name) = ["wf_b", "wf_a"] ∧
    catTie.map prioKey = [5, 5] ∧
    planNames catTie (mkWf []) [0] = some (["wf_a", "wf_b"]) := by
  decide

/-- Resetting failed and state erases the only fields in which two
environment-equal workflow objects can differ. -/
theorem wf_reset_eq {σ : Type} (a b : Workflow σ) (h : sameEnv a b) (f : Bool) (st : σ) :
    ({ a with failed := f, state := st } : Workflow σ)
      = { b with failed := f, state := st } := by
  obtain ⟨h1, h2, h3⟩ := h
  cases a
  cases b
  simp only at h1 h2 h3
  simp [h1, h2, h3]

theorem itemOutput_congr {σ ι ρ : Type} (plan : List (Step σ)) (init : ι → σ)
    (succ : Workflow σ → ρ) (a b : Workflow σ) (h : sameEnv a b) :
    itemOutput plan init succ a = itemOutput plan init succ b := by
  funext item
  unfold itemOutput
  rw [wf_reset_eq a b h false (init item)]

theorem length_filterMap_countP {α β : Type} (f : α → Option β) (l : List α) :
    (l.filterMap f).length = l.countP (fun a => (f a).isSome) := by
  induction l with
  | nil => simp
  | cons x xs ih =>
    cases hf : f x <;> simp [List.filterMap_cons, hf, List.countP_cons, ih]

/-- The item loop with no fail callback produces exactly the per-item
outputs of the non-failed items, in input order. -/
theorem runItems_filterMap {σ ι ρ : Type} (plan : List (Step σ)) (init : ι → σ)
    (succ : Workflow σ → ρ) :
    ∀ (items : List ι) (wf wfN : Workflow σ) (outs : List ρ),
      runItems plan init Option.none succ items wf = (outs, Option.none, wfN) →
      outs = items.filterMap (itemOutput plan init succ wf) := by
  intro items
  induction items with
  | nil =>
    intro wf wfN outs h
    simp only [runItems, Prod.mk.injEq] at h
    obtain ⟨h1, -⟩ := h
    rw [← h1]
    rfl
  | cons it rest ih =>
    intro wf wfN outs h
    cases hrp : runPlan plan { wf with failed := false, state := init it } with
    | error e => simp [runItems, hrp] at h
    | ok wf2 =>
      rcases hr2 : runItems plan init Option.none succ rest wf2 with ⟨outs2, st2, wfN2⟩
      simp only [runItems, hrp, hr2] at h
      have henv : sameEnv wf2 wf :=
        runPlan_env plan { wf with failed := false, state := init it } wf2 hrp
      have hcongr := itemOutput_congr plan init succ wf2 wf henv
      cases hfail : wf2.failed with
      | true =>
        simp only [hfail, if_true, Prod.mk.injEq] at h
        obtain ⟨ho, hst, hwn⟩ := h
        subst hst
        have hrec := ih wf2 wfN2 outs2 hr2
        have hio : itemOutput plan init succ wf it = Option.none := by
          simp [itemOutput, hrp, hfail]
        simp only [List.filterMap_cons, hio]
        rw [← ho, hrec, hcongr]
      | false =>
        simp only [hfail, if_false, Prod.mk.injEq] at h
        obtain ⟨ho, hst, hwn⟩ := h
        have hrec := ih wf2 wfN outs2 hr2
        have hio : itemOutput plan init succ wf it = some (succ wf2) := by
          simp [itemOutput, hrp, hfail]
        simp only [List.filterMap_cons, hio]
        rw [hrec, hcongr]

/-- C6: with no fail callback, an item whose failed flag is set after its
plan steps contributes no output, the outputs are exactly the per-item
outputs of the non-failed items in input order, and the number of outputs is
the count of non-failed items. -/
theorem c6_drop_failed {σ ι ρ : Type} (plan : List (Step σ)) (init : ι → σ)
    (succ : Workflow σ → ρ) (items : List ι) (wf wfN : Workflow σ) (outs : List ρ)
    (h : runItems plan init Option.none succ items wf = (outs, Option.none, wfN)) :
    outs = items.filterMap (itemOutput plan init succ wf) ∧
    outs.length = items.countP (fun it => (itemOutput plan init succ wf it).isSome) := by
  have hm := runItems_filterMap plan init succ items wf wfN outs h
  exact ⟨hm, by rw [hm, length_filterMap_countP]⟩

/-- A step marking an item failed exactly when the state equals 1. -/
def stepFailOn1 : Step Int :=
  { name := "wf_failon", priority := Option.none, gate := .noReq,
    body := fun w => (w.state, w.state == 1) }

theorem c6_witness :
    ([0, 2] : List Int)
        = ([0, 1, 2] : List Int).filterMap
            (itemOutput [stepFailOn1] (fun i => i) (fun w => w.state) (mkWf [])) ∧
    ([0, 2] : List Int).length
        = ([0, 1, 2] : List Int).countP
            (fun it =>
              (itemOutput [stepFailOn1] (fun i => i) (fun w => w.state) (mkWf []) it).isSome) :=
  c6_drop_failed [stepFailOn1] (fun i => i) (fun w => w.state) [0, 1, 2] (mkWf [])
    { options := [], stats := [], short_circuit := true, failed := false, state := 2 }
    [0, 2] rfl

/-- A step whose body always marks the item failed. -/
def stepAlwaysFail : Step Int :=
  { name := "wf_fail", priority := Option.none, gate := .noReq,
    body := fun w => (w.state, true) }

/-- C7 counterexample: an empty stream surfaces no error to the caller, and
its observable result, zero outputs with normal termination, is the same as
that of a non-empty stream whose items all fail with no fail callback.  The
StopIteration raised by the sampling peek inside the Python 2 generator body
is indistinguishable from normal exhaustion. -/
theorem c7_counterexample :
    observedCall c1cat (fun i => i) (mkWf c1opts) ([] : List Int)
        (fun w => w.state) Option.none = ([], Option.none) ∧
    observedCall [stepAlwaysFail] (fun i => i) (mkWf []) [1, 2]
        (fun w => w.state) Option.none = ([], Option.none) := by
  decide

/-- C7 amended: invoking run on an empty stream raises StopIteration from
the sampling peek inside the generator, which Python 2 treats as normal
generator termination: the caller observes zero outputs and no error, an
outcome not distinct from a non-empty stream yielding zero output
elements. -/
theorem c7_empty_stream_amended {σ ι ρ : Type} (cat : List (Step σ)) (init : ι → σ)
    (wf : Workflow σ) (succ : Workflow σ → ρ) (fc : Option (Workflow σ → ρ)) :
    observedCall cat init wf ([] : List ι) succ fc = ([], Option.none) := rfl

/-- The requirement of the C8 example: option key x gated on the bare string
ab, which the isinstance str branch of requires.__init__ keeps as a
string. -/
def rStrVals : Requires Int :=
  { valid_state := true, option := some ("x"), values := normalizeValues (.str ("ab")),
    valid_data := Option.none }

/-- A body incrementing the state. -/
def bodyInc : Workflow Int → Int × Bool := fun w => (w.state + 1, w.failed)

/-- A workflow configured with x set to the string a, a proper substring of
ab. -/
def wfStrCfg : Workflow Int :=
  { options := [("x", PyVal.str ("a"))], stats := [], short_circuit := true,
    failed := false, state := 0 }

/-- C8 counterexample: with the single allowed string ab and the configured
value the different string a, the step still executes, because the Python
membership test v in self.values on two strings is substring containment,
not equality. -/
theorem c8_counterexample :
    runRequires rStrVals bodyInc wfStrCfg = .ok (applyBody bodyInc wfStrCfg, true) ∧
    PyVal.str ("a") ≠ PyVal.str ("ab") := by
  exact ⟨rfl, by decide⟩

/-- C8 amended: for a single-string allowed value, the step executes exactly
when the configured string value is a contiguous substring of the allowed
string (Python in on two strings); exact equality is sufficient but not
necessary. -/
theorem c8_substring_semantics {σ : Type} (r : Requires σ) (body : Workflow σ → σ × Bool)
    (wf : Workflow σ) (k s v : String)
    (hr : r = { valid_state := true, option := some k, values := .str s,
                valid_data := Option.none })
    (hv : lookupOpt wf.options k = some (.str v))
    (hf : wf.failed = false) :
    runRequires r body wf
      = if listSub v.data s.data then .ok (applyBody body wf, true)
        else .ok (wf, false) := by
  subst hr
  simp only [runRequires, runRequiresChecks, runRequiresOption, hf, hv,
    Bool.false_and, Bool.and_false, Bool.true_and, if_false]
  cases hls : listSub v.data s.data <;>
    simp [isNotNoneV, valuesContains, hls]

theorem c8_witness :
    runRequires rStrVals bodyInc wfStrCfg
      = if listSub (String.data ("a")) (String.data ("ab"))
        then .ok (applyBody bodyInc wfStrCfg, true) else .ok (wfStrCfg, false) :=
  c8_substring_semantics rStrVals bodyInc wfStrCfg ("x") ("ab") ("a") rfl rfl rfl

/-- The requirement of C9: option key x with the not_none sentinel. -/
def rNotNone : Requires Int :=
  { valid_state := true, option := some ("x"), values := normalizeValues .notNone,
    valid_data := Option.none }

/-- A workflow whose configured value for x is None. -/
def wfNoneCfg : Workflow Int :=
  { options := [("x", PyVal.none)], stats := [], short_circuit := true,
    failed := false, state := 0 }

/-- C9: with the not_none matcher and a configured value of None, the
decorated function falls through its first test into the membership test
None in not_none on the bare sentinel object, which raises TypeError instead
of skipping the step without error. -/
theorem c9_not_none_raises :
    runRequires rNotNone bodyInc wfNoneCfg
      = .error (.typeError ("argument of type object is not iterable")) := rfl

/-- The selection scan leaves the workflow object equal to the starting
object transformed by exactly the bodies of the selected steps, in
order. -/
theorem selectSteps_foldl {σ : Type} :
    ∀ (ms : List (Step σ)) (wf w2 : Workflow σ) (sel : List (Step σ)),
      selectSteps ms wf = .ok (w2, sel) →
      w2 = sel.foldl (fun w s => applyBody s.body w) wf := by
  intro ms
  induction ms with
  | nil =>
    intro wf w2 sel h
    cases h
    rfl
  | cons m rest ih =>
    intro wf w2 sel h
    cases hrs : runStep m wf with
    | error e => simp [selectSteps, hrs] at h
    | ok p =>
      obtain ⟨w1, ex⟩ := p
      cases hsel : selectSteps rest w1 with
      | error e => simp [selectSteps, hrs, hsel] at h
      | ok q =>
        obtain ⟨w3, sel2⟩ := q
        simp only [selectSteps, hrs, hsel, Except.ok.injEq, Prod.mk.injEq] at h
        obtain ⟨hw, hs⟩ := h
        subst hs
        have hshape := runStep_shape m wf w1 ex hrs
        have hrec := ih w1 w3 sel2 hsel
        rw [← hw, hrec, hshape]
        cases ex <;> simp

/-- C10: plan resolution runs the bodies of the included steps on the sample
context (the returned workflow state and failed flag are those of the sample
context transformed by exactly the plan bodies in plan order), yet its
short-circuit flag and stats counters equal their pre-resolution values. -/
theorem c10_resolution_frame {σ ι : Type} (cat : List (Step σ)) (init : ι → σ)
    (wf : Workflow σ) (i : ι) (rest its : List ι) (plan : List (Step σ))
    (wf2 : Workflow σ)
    (h : getWorkflow cat init wf (i :: rest) = .ok (its, plan, wf2)) :
    wf2.short_circuit = wf.short_circuit ∧ wf2.stats = wf.stats ∧
    wf2.state = (plan.foldl (fun w s => applyBody s.body w)
        { wf with short_circuit := false, state := init i }).state ∧
    wf2.failed = (plan.foldl (fun w s => applyBody s.body w)
        { wf with short_circuit := false, state := init i }).failed := by
  cases hsel : selectSteps (allWfMethods cat)
      { wf with short_circuit := false, state := init i } with
  | error e => simp [getWorkflow, hsel] at h
  | ok q =>
    obtain ⟨w3, executed⟩ := q
    simp only [getWorkflow, hsel, Except.ok.injEq, Prod.mk.injEq] at h
    obtain ⟨-, hplan, hwf⟩ := h
    subst hplan
    subst hwf
    have hfold := selectSteps_foldl (allWfMethods cat)
      { wf with short_circuit := false, state := init i } w3 executed hsel
    refine ⟨rfl, rfl, ?_, ?_⟩ <;> simp [hfold]

/-- The resolved plan of the C1 catalogue. -/
def c1plan : List (Step Int) := [stepMul, stepDouble, stepSub]

/-- The workflow object handed back by resolving the C1 catalogue on the
sample item 3. -/
def wfAfterRes : Workflow Int :=
  { options := c1opts, stats := [], short_circuit := true, failed := false, state := 13 }

theorem c10_witness :
    wfAfterRes.short_circuit = (mkWf c1opts).short_circuit ∧
    wfAfterRes.stats = (mkWf c1opts).stats ∧
    wfAfterRes.state = (c1plan.foldl (fun w s => applyBody s.body w)
        { mkWf c1opts with short_circuit := false, state := (3 : Int) }).state ∧
    wfAfterRes.failed = (c1plan.foldl (fun w s => applyBody s.body w)
        { mkWf c1opts with short_circuit := false, state := (3 : Int) }).failed :=
  c10_resolution_frame c1cat (fun i => i) (mkWf c1opts) 3 [] [3] c1plan wfAfterRes rfl
